import Mathlib

/-!
# Verification of the lightning lobby/session coordinator

A shallow embedding, in Lean 4, of the session/lobby coordinator of the
`lightning` multiplayer card-game server, together with theorems about the
claims made by its specification.

The embedding follows the Go sources:

* `src/internal/party.go` (second unit, lines 211-658): the synchronous
  `PartyManager` — the single-writer coordinator owning `Parties`, `Members`,
  `Abandoned`, `Games` and `PublicParty`.
* `src/unnamed/part_001`: the `Party` data structure (members, host,
  connection flags) and its operations.
* `src/unnamed/part_003`: the message codec (`ServerMessage`,
  `UnmarshalServerMessage`, the outbound payload structs).
* `src/internal/client.go`: `ServeWs` and the client session record.

Go maps are embedded as association lists (`lookupA` / `insertA` / `eraseA`);
`*Client` pointers are embedded as references (`ClientRef`) into an explicit
client heap so that the reconnect graft, which mutates a shared `Client`
struct, is modelled faithfully.  Opaque string identifiers (`ClientID`,
`PartyID`, `SecretKey`, `GameID`) are embedded as `Nat`, with `0` playing the
role of Go's zero value `""` (the "join the public queue" sentinel value of
`partyId`, and the absent `clientId` of a non-reconnect join).  Wall-clock
instants (`time.Time`) are embedded as `Nat` milliseconds, and `time.Since t`
as truncated subtraction `now - t`.
-/

namespace Lightning

/-! ## Association lists (the embedding of Go maps)

`lookupA` finds the first binding of a key; `insertA` replaces the first
binding in place or appends a new one (so insertion of a present key keeps
the length); `eraseA` removes every binding of a key.  States built from `[]`
by these operations have pairwise distinct keys, so the first-binding and
every-binding views agree on them.
-/

def lookupA {α : Type _} {β : Type _} [DecidableEq α] : List (α × β) → α → Option β
  | [], _ => none
  | e :: t, k => if e.1 = k then some e.2 else lookupA t k

def insertA {α : Type _} {β : Type _} [DecidableEq α] : List (α × β) → α → β → List (α × β)
  | [], k, v => [(k, v)]
  | e :: t, k, v => if e.1 = k then (k, v) :: t else e :: insertA t k v

def eraseA {α : Type _} {β : Type _} [DecidableEq α] : List (α × β) → α → List (α × β)
  | [], _ => []
  | e :: t, k => if e.1 = k then eraseA t k else e :: eraseA t k


/-! ## Identifiers and constants

Opaque string identifiers are embedded as `Nat`; `0` plays the role of Go's
zero value `""`.  Constants are from `src/unnamed/part_001` (`maxPartySize`,
`minPartySize`) and `src/internal/party.go` (`partyManagerBufferSize`).
-/

abbrev ClientID := Nat
abbrev SecretKey := Nat
abbrev PartyID := Nat
abbrev GameID := Nat

/-- Identity of a `*Client` struct (a heap reference). -/
abbrev ClientRef := Nat

/-- Identity of a client's websocket connection (`Client.conn`). -/
abbrev ConnTok := Nat

/-- Identity of a client's outbound send channel (`Client.send`). -/
abbrev SendTok := Nat

def maxPartySize : Nat := 6
def minPartySize : Nat := 2
def partyManagerBufferSize : Nat := 64

/-! ## Outbound messages (coordinator level)

The coordinator hands `Client.SendMessage` a message type and a typed
payload; at this level we embed the pair as the inductive `Msg` (the byte
codec of `src/unnamed/part_003` is embedded separately below).  Error codes
are the `ServerErrorCode` constants referenced by the coordinator and client
sources.
-/

inductive ErrCode where
  | invalidRequest
  | alreadyInParty
  | partyNotFound
  | notInSession
  | partyFull
  | queueFull
  | sessionExpired
  | notPartyHost
  | notEnoughMembers
  | notInGame
  deriving DecidableEq

/-- The projection of a party member sent in `memberUpdate`
(`PartyMemberInfo`, `src/unnamed/part_001` lines 25-29). -/
structure MemberInfo where
  id : ClientID
  isHost : Bool
  isConnected : Bool
  deriving DecidableEq

/-- Modelled from the spec: `connectSuccess — {clientId, secretKey}` (§4.1).
The current revision of `message.go` defining this two-field payload struct is
not under `src/` (`src/unnamed/part_003` is an older revision whose
`ServerMessageConnectSuccessPayload` lacks `secretKey`); its caller
`src/internal/client.go` line 80 constructs it with both fields. -/
structure ConnectSuccessPayload where
  clientId : ClientID
  secretKey : SecretKey
  deriving DecidableEq

inductive Msg where
  | connectSuccess (p : ConnectSuccessPayload)
  | queueJoined
  | partyJoined (partyId : PartyID)
  | partyLeft (reason : String)
  | memberUpdate (members : List MemberInfo)
  | gameStarted (countdownSeconds : Nat) (timestamp : Nat)
  | gameOver (winnerId : String) (reason : String)
  | error (code : ErrCode) (message : String) (requestType : String)
  deriving DecidableEq

/-- An enqueue attempt on a client's send channel: `Client.SendMessage`
drops when the buffer is full, so at coordinator level a send is the pair of
the target send channel and the message. -/
structure Out where
  dest : SendTok
  msg : Msg
  deriving DecidableEq

/-! ## Client session records (`src/internal/client.go`) -/

/-- The mutable fields of a Go `Client` struct.  `ID` and `Secret` are
immutable after construction; `conn`, `send` and `game` are rewritten by the
coordinator (reconnect graft, game assignment). -/
structure Client where
  ID : ClientID
  Secret : SecretKey
  conn : ConnTok
  send : SendTok
  game : Option GameID
  deriving DecidableEq

/-- The heap of live `*Client` structs. -/
abbrev ClientHeap := List (ClientRef × Client)

/-! ## Party (`src/unnamed/part_001`) -/

/-- `PartyMember` pairs a client pointer with its connection flag. -/
structure PartyMember where
  Client : ClientRef
  IsConnected : Bool
  deriving DecidableEq

structure Party where
  ID : PartyID
  Members : List (ClientID × PartyMember)
  HostID : ClientID
  game : Option GameID
  deriving DecidableEq

/-- `NewParty` (part_001 lines 47-52): empty member map; `HostID` and `game`
start as Go zero values. -/
def NewParty (id : PartyID) : Party :=
  { ID := id, Members := [], HostID := 0, game := none }

/-- `Party.AddClient` (part_001 lines 55-60): insert the member (resetting
`IsConnected` to true), then make it host if the map now has exactly one
entry.  `ref`/`cid` stand for the `*Client` argument and its `ID` field. -/
def Party.AddClient (p : Party) (ref : ClientRef) (cid : ClientID) : Party :=
  let members := insertA p.Members cid { Client := ref, IsConnected := true }
  { p with
    Members := members
    HostID := if members.length = 1 then cid else p.HostID }

/-- `Party.RemoveClient` (part_001 lines 63-74): delete the member; if the
host left, the first remaining member (Go: some member produced by map
iteration) becomes host, and an empty party keeps the departed `HostID`. -/
def Party.RemoveClient (p : Party) (cid : ClientID) : Party :=
  let members := eraseA p.Members cid
  { p with
    Members := members
    HostID :=
      if p.HostID = cid then
        match members with
        | [] => p.HostID
        | e :: _ => e.1
      else p.HostID }

/-- `Party.MarkClientDisconnected` (part_001 lines 77-83). -/
def Party.MarkClientDisconnected (p : Party) (cid : ClientID) : Party :=
  match lookupA p.Members cid with
  | some m => { p with Members := insertA p.Members cid { m with IsConnected := false } }
  | none => p

/-- `Party.MarkClientConnected` (part_001 lines 86-92). -/
def Party.MarkClientConnected (p : Party) (cid : ClientID) : Party :=
  match lookupA p.Members cid with
  | some m => { p with Members := insertA p.Members cid { m with IsConnected := true } }
  | none => p

/-- `Party.IsFull` (part_001 lines 95-97). -/
def Party.IsFull (p : Party) : Bool :=
  maxPartySize ≤ p.Members.length

/-- `Party.IsEmpty` (part_001 lines 100-102). -/
def Party.IsEmpty (p : Party) : Bool :=
  p.Members.length = 0

/-- `Party.getMemberInfo` (part_001 lines 112-122): project each member
through its client pointer.  A dangling pointer cannot occur in the server
(the heap entry outlives the membership); it is mapped to a zero record. -/
def Party.getMemberInfo (heap : ClientHeap) (p : Party) : List MemberInfo :=
  p.Members.map (fun e =>
    match lookupA heap e.2.Client with
    | some c => { id := c.ID, isHost := p.HostID = c.ID, isConnected := e.2.IsConnected }
    | none => { id := 0, isHost := false, isConnected := e.2.IsConnected })

/-- `Party.broadcast` (part_001 lines 105-109): enqueue the message on every
member's send channel. -/
def Party.broadcast (heap : ClientHeap) (p : Party) (m : Msg) : List Out :=
  p.Members.filterMap (fun e =>
    (lookupA heap e.2.Client).map (fun c => { dest := c.send, msg := m }))

/-! ## Game (the session object started by `StartGame`)

`src/internal/party.go` line 473 creates the game from the party's member
map; the game's `StartGame` command handler
(`src/internal/party_manager.go` lines 930-941) broadcasts
`gameStarted{countdownSeconds=3, timestamp=now}` to its clients.
-/

structure Game where
  ID : GameID
  Clients : List (ClientID × ClientRef)
  deriving DecidableEq

/-- The broadcast performed by the game's loop on `GameCommandStartGame`
(`src/internal/party_manager.go` lines 930-941). -/
def Game.handleStartCmd (g : Game) (heap : ClientHeap) (now : Nat) : List Out :=
  g.Clients.filterMap (fun e =>
    (lookupA heap e.2).map (fun c => { dest := c.send, msg := Msg.gameStarted 3 now }))

/-! ## PartyManager state (`src/internal/party.go` lines 277-295) -/

/-- An `AbandonedClient` entry: the client pointer and the instant of
disconnection (`party.go` lines 272-275). -/
abbrev AbandonedEntry := ClientRef × Nat

structure PartyManager where
  clients : ClientHeap
  PublicParty : Option PartyID
  Parties : List (PartyID × Party)
  Members : List (ClientID × PartyID)
  Abandoned : List (ClientID × AbandonedEntry)
  Games : List (GameID × Game)
  PublicQueue : List ClientRef
  AbandonmentTimeout : Nat
  nextClientRef : Nat
  nextPartyId : Nat
  nextGameId : Nat
  deriving DecidableEq

/-- `NewPartyManagerWithTimeouts` (`party.go` lines 302-318): all indices
empty, `PublicParty` nil.  Fresh party and game ids are drawn from counters
starting at 1, so that `0` stays reserved for Go's zero value `""`. -/
def initPM (timeout : Nat) : PartyManager :=
  { clients := [], PublicParty := none, Parties := [], Members := [],
    Abandoned := [], Games := [], PublicQueue := [],
    AbandonmentTimeout := timeout,
    nextClientRef := 0, nextPartyId := 1, nextGameId := 1 }

/-- Set the `game` field of the client struct at `ref`
(`member.Client.game = ...` under the per-client mutex). -/
def updateClientGame (heap : ClientHeap) (ref : ClientRef) (g : Option GameID) :
    ClientHeap :=
  match lookupA heap ref with
  | some c => insertA heap ref { c with game := g }
  | none => heap

/-- `Client.SendMessage`/`SendError` on a possibly nil client: the synthetic
`&Client{ID: cid}` used by the cleanup sweep has a nil send channel, on which
the non-blocking send always drops. -/
def sendOpt (tok : Option SendTok) (m : Msg) : List Out :=
  match tok with
  | some t => [{ dest := t, msg := m }]
  | none => []

/-- `ServeWs` (`src/internal/client.go` lines 63-81): allocate a fresh
`Client` with a new id, secret, connection and send channel, start its pumps,
and send it `connectSuccess{clientId, secretKey}`.  The fresh identifiers are
drawn from the `nextClientRef` counter (`uuid.New()` in the source); they are
offset by 1 so that no client ever has the zero id. -/
def ServeWs (s : PartyManager) : PartyManager × List Out :=
  let n := s.nextClientRef
  let c : Client := { ID := n + 1, Secret := n + 1, conn := n + 1, send := n + 1, game := none }
  ({ s with clients := insertA s.clients n c, nextClientRef := n + 1 },
   [{ dest := c.send, msg := Msg.connectSuccess { clientId := c.ID, secretKey := c.Secret } }])

/-- The departing-client confirmation of `removeClientFromParty`
(`party.go` lines 618-622): `partyLeft{reason=self-initiated}` unless the
message type is empty (the cleanup sweep passes `""`). -/
def leaveNotice (tok : Option SendTok) (cmt : String) : List Out :=
  if cmt ≠ "" then sendOpt tok (Msg.partyLeft "self-initiated") else []

/-- `removeClientFromParty` (`party.go` lines 600-644).  `cid` is the `ID`
field of the `*Client` argument and `tok` its send channel (`none` for the
synthetic cleanup client); `cmt` is the `ClientMessageType` argument. -/
def removeClientFromParty (s : PartyManager) (cid : ClientID) (tok : Option SendTok)
    (cmt : String) : PartyManager × List Out :=
  match lookupA s.Members cid with
  | none => (s, sendOpt tok (Msg.error ErrCode.notInSession "Not in any party" cmt))
  | some pid =>
    match lookupA s.Parties pid with
    | none =>
      ({ s with Members := eraseA s.Members cid },
       sendOpt tok (Msg.error ErrCode.partyNotFound "Party not found" cmt))
    | some p =>
      let p1 := p.RemoveClient cid
      let s1 := { s with Parties := insertA s.Parties pid p1,
                         Members := eraseA s.Members cid }
      if p1.IsEmpty then
        ({ s1 with Parties := eraseA s1.Parties pid,
                   PublicParty := if s1.PublicParty = some pid then none
                                  else s1.PublicParty },
         leaveNotice tok cmt)
      else
        (s1, leaveNotice tok cmt ++
          p1.broadcast s1.clients (Msg.memberUpdate (p1.getMemberInfo s1.clients)))

/-- The already-in-party guard of the `AddClient` command (`party.go` lines
400-403): the error is sent and control falls through into the join logic
(the source deliberately does not return). -/
def alreadyInPartyNotice (s : PartyManager) (c : Client) : List Out :=
  if (lookupA s.Members c.ID).isSome then
    [{ dest := c.send, msg := Msg.error ErrCode.alreadyInParty "Already In Party." "join" }]
  else []

/-- The `PartyManagerCommandAddClient` case of `handleCommand`
(`party.go` lines 339-431).  `ref` is the `Client` field of the payload (the
current session), `clientID`/`partyID`/`secret` the remaining payload fields;
`now` is the wall clock read by `time.Since`. -/
def handleAddClient (s : PartyManager) (now : Nat) (ref : ClientRef)
    (clientID : ClientID) (partyID : PartyID) (secret : SecretKey) :
    PartyManager × List Out :=
  match lookupA s.clients ref with
  | none => (s, [])   -- unreachable: the payload always carries a live struct
  | some cNew =>
    match lookupA s.Abandoned clientID with
    | some (oldRef, abandonedAt) =>
      match lookupA s.clients oldRef with
      | none => (s, [])   -- unreachable: abandoned entries hold live structs
      | some cOld =>
        if now - abandonedAt < s.AbandonmentTimeout ∧ secret = cOld.Secret then
          -- graft the new transport and send queue onto the old struct
          let cOld1 := { cOld with conn := cNew.conn, send := cNew.send }
          let clients1 := insertA s.clients oldRef cOld1
          match lookupA s.Members clientID with
          | none =>
            ({ s with clients := clients1, Abandoned := eraseA s.Abandoned clientID },
             [{ dest := cOld1.send,
                msg := Msg.error ErrCode.sessionExpired "Session expired." "join" }])
          | some realPartyID =>
            match lookupA s.Parties realPartyID with
            | none =>
              ({ s with clients := clients1,
                        Abandoned := eraseA s.Abandoned clientID,
                        Members := eraseA s.Members clientID },
               [{ dest := cOld1.send,
                  msg := Msg.error ErrCode.partyNotFound "Party no longer exists." "join" }])
            | some party =>
              let party1 := party.MarkClientConnected clientID
              let clients2 := updateClientGame clients1 oldRef party1.game
              ({ s with clients := clients2,
                        Parties := insertA s.Parties realPartyID party1,
                        Abandoned := eraseA s.Abandoned clientID },
               { dest := cOld1.send, msg := Msg.partyJoined partyID } ::
                 party1.broadcast clients2
                   (Msg.memberUpdate (party1.getMemberInfo clients2)))
        else
          ({ s with Abandoned := eraseA s.Abandoned clientID },
           [{ dest := cNew.send,
              msg := Msg.error ErrCode.sessionExpired "Reconnection window expired." "join" }])
    | none =>
      let dupErr := alreadyInPartyNotice s cNew
      if partyID = 0 then
        -- public-queue path (non-blocking send on a channel of capacity 64)
        if s.PublicQueue.length < partyManagerBufferSize then
          ({ s with PublicQueue := s.PublicQueue ++ [ref] },
           dupErr ++ [{ dest := cNew.send, msg := Msg.queueJoined }])
        else
          (s, dupErr ++ [{ dest := cNew.send, msg := Msg.error ErrCode.queueFull "Queue is full." "join" }])
      else
        match lookupA s.Parties partyID with
        | some p =>
          let p1 := p.AddClient ref cNew.ID
          ({ s with Parties := insertA s.Parties partyID p1,
                    Members := insertA s.Members cNew.ID partyID },
           dupErr ++ { dest := cNew.send, msg := Msg.partyJoined partyID } ::
             p1.broadcast s.clients (Msg.memberUpdate (p1.getMemberInfo s.clients)))
        | none =>
          (s, dupErr ++ [{ dest := cNew.send, msg := Msg.error ErrCode.partyNotFound "Party not found." "join" }])

/-- The `PartyManagerCommandRemoveClient` case of `handleCommand`
(`party.go` lines 433-437). -/
def handleRemoveClient (s : PartyManager) (ref : ClientRef) : PartyManager × List Out :=
  match lookupA s.clients ref with
  | none => (s, [])
  | some c => removeClientFromParty s c.ID (some c.send) "leave"

/-- The `PartyManagerCommandStartGame` case of `handleCommand`
(`party.go` lines 439-487).  The game's own `gameStarted` broadcast happens
in the game's loop and is modelled by `Game.handleStartCmd`. -/
def handleStartGame (s : PartyManager) (ref : ClientRef) : PartyManager × List Out :=
  match lookupA s.clients ref with
  | none => (s, [])
  | some c =>
    match lookupA s.Members c.ID with
    | none => (s, [{ dest := c.send, msg := Msg.error ErrCode.notInSession "No session found." "startGame" }])
    | some pid =>
      match lookupA s.Parties pid with
      | none => (s, [{ dest := c.send, msg := Msg.error ErrCode.partyNotFound "Party not found" "startGame" }])
      | some p =>
        if c.ID ≠ p.HostID then
          (s, [{ dest := c.send, msg := Msg.error ErrCode.notPartyHost "Not party host." "startGame" }])
        else if p.Members.length < minPartySize then
          (s, [{ dest := c.send, msg := Msg.error ErrCode.notEnoughMembers "Party size is too small." "startGame" }])
        else
          let gid := s.nextGameId
          let game : Game := { ID := gid, Clients := p.Members.map (fun e => (e.1, e.2.Client)) }
          let clients1 := (p.Members.map (fun e => e.2.Client)).foldl
            (fun h r => updateClientGame h r (some gid)) s.clients
          ({ s with Parties := insertA s.Parties pid { p with game := some gid },
                    Games := insertA s.Games gid game,
                    clients := clients1,
                    nextGameId := gid + 1 },
           [])

/-- The party-side effect of a disconnect (`party.go` lines 493-503): mark
the member disconnected and broadcast `memberUpdate`, when the client's
`Members` entry resolves to an existing party. -/
def disconnectParties (s : PartyManager) (cid : ClientID) :
    List (PartyID × Party) × List Out :=
  match lookupA s.Members cid with
  | some pid =>
    match lookupA s.Parties pid with
    | some p =>
      let p1 := p.MarkClientDisconnected cid
      (insertA s.Parties pid p1,
       p1.broadcast s.clients (Msg.memberUpdate (p1.getMemberInfo s.clients)))
    | none => (s.Parties, [])
  | none => (s.Parties, [])

/-- The `PartyManagerCommandDisconnectClient` case of `handleCommand`
(`party.go` lines 489-515): notify the party, clear the client's game
reference, and record the abandonment instant. -/
def handleDisconnect (s : PartyManager) (now : Nat) (ref : ClientRef) :
    PartyManager × List Out :=
  match lookupA s.clients ref with
  | none => (s, [])
  | some c =>
    ({ s with Parties := (disconnectParties s c.ID).1,
              clients := updateClientGame s.clients ref none,
              Abandoned := insertA s.Abandoned c.ID (ref, now) },
     (disconnectParties s c.ID).2)

/-- One iteration of the cleanup sweep (`party.go` lines 519-538): expired
entries are removed from `Abandoned`, the party's game (if any) is notified
asynchronously, and the client is excised via `removeClientFromParty` with a
synthetic client (nil send channel) and empty message type. -/
def cleanupStep (now : Nat) (acc : PartyManager × List Out)
    (e : ClientID × AbandonedEntry) : PartyManager × List Out :=
  if now - e.2.2 > acc.1.AbandonmentTimeout then
    let st1 := { acc.1 with Abandoned := eraseA acc.1.Abandoned e.1 }
    let r := removeClientFromParty st1 e.1 none ""
    (r.1, acc.2 ++ r.2)
  else acc

/-- The `PartyManagerCommandCleanup` case of `handleCommand`
(`party.go` lines 517-539): iterate over the abandonment table. -/
def handleCleanup (s : PartyManager) (now : Nat) : PartyManager × List Out :=
  s.Abandoned.foldl (cleanupStep now) (s, [])

/-- The allocation inside `handleQueueJoin` (`party.go` lines 549-553):
create a party with a fresh id, insert it into `Parties`, install it as the
public party. -/
def allocPublicParty (s : PartyManager) : PartyID × PartyManager :=
  (s.nextPartyId,
   { s with Parties := insertA s.Parties s.nextPartyId (NewParty s.nextPartyId),
            PublicParty := some s.nextPartyId,
            nextPartyId := s.nextPartyId + 1 })

/-- The guard of `handleQueueJoin` (`party.go` line 549): allocate a new
public party exactly when `PublicParty` is nil or full.  A stale pointer
(non-nil but absent from `Parties`) cannot occur — parties are deleted only
when empty, and the pointer is cleared in the same command — and is treated
like nil. -/
def choosePublicParty (s : PartyManager) : PartyID × PartyManager :=
  match s.PublicParty with
  | none => allocPublicParty s
  | some pid0 =>
    match lookupA s.Parties pid0 with
    | none => allocPublicParty s
    | some p0 => if p0.IsFull then allocPublicParty s else (pid0, s)

/-- The tail of `handleQueueJoin` (`party.go` lines 554-566): add the queued
client to the public party, index it in `Members`, send `partyJoined` and
broadcast `memberUpdate`. -/
def queueJoinInto (s1 : PartyManager) (pid : PartyID) (ref : ClientRef) (c : Client) :
    PartyManager × List Out :=
  match lookupA s1.Parties pid with
  | none => (s1, [])   -- unreachable: the chosen party was just checked or created
  | some p =>
    let p1 := p.AddClient ref c.ID
    ({ s1 with Parties := insertA s1.Parties pid p1,
               Members := insertA s1.Members c.ID pid },
     { dest := c.send, msg := Msg.partyJoined pid } ::
       p1.broadcast s1.clients (Msg.memberUpdate (p1.getMemberInfo s1.clients)))

/-- `handleQueueJoin` (`party.go` lines 548-567): draining one client from
the public queue channel. -/
def handleQueueJoin (s : PartyManager) (ref : ClientRef) : PartyManager × List Out :=
  match lookupA s.clients ref with
  | none => (s, [])
  | some c =>
    let chosen := choosePublicParty s
    queueJoinInto chosen.2 chosen.1 ref c

/-- The `GameEventEnded` case of `handleGameEvent` (`party.go` lines
574-583): clear the game reference of every client of the finished game. -/
def handleGameEnded (s : PartyManager) (gid : GameID) : PartyManager :=
  match lookupA s.Games gid with
  | some g =>
    { s with clients := ((g.Clients.map (fun e => e.2)).foldl
        (fun h r => updateClientGame h r none) s.clients) }
  | none => s

/-! ## The coordinator loop as a transition system

`Run` (`party.go` lines 322-333) multiplexes commands, queue joins and game
events.  A `Cmd` is one unit of work processed by the loop (plus `connect`
for `ServeWs`, which populates the client heap); `Reach` is the set of
coordinator states reachable from the initial state.
-/

inductive Cmd where
  | connect
  | addClient (now : Nat) (ref : ClientRef) (clientID : ClientID)
              (partyID : PartyID) (secret : SecretKey)
  | removeClient (ref : ClientRef)
  | startGame (ref : ClientRef)
  | disconnect (now : Nat) (ref : ClientRef)
  | cleanup (now : Nat)
  | queueDrain
  | gameEnded (gid : GameID)

/-- One receive on the `PublicQueue` channel followed by `handleQueueJoin`;
the receive only fires when the channel is non-empty. -/
def handleQueueDrain (s : PartyManager) : PartyManager :=
  match s.PublicQueue with
  | [] => s
  | ref :: rest => (handleQueueJoin { s with PublicQueue := rest } ref).1

def applyCmd (s : PartyManager) : Cmd → PartyManager
  | Cmd.connect => (ServeWs s).1
  | Cmd.addClient now ref cid pid sec => (handleAddClient s now ref cid pid sec).1
  | Cmd.removeClient ref => (handleRemoveClient s ref).1
  | Cmd.startGame ref => (handleStartGame s ref).1
  | Cmd.disconnect now ref => (handleDisconnect s now ref).1
  | Cmd.cleanup now => (handleCleanup s now).1
  | Cmd.queueDrain => handleQueueDrain s
  | Cmd.gameEnded gid => handleGameEnded s gid

def Step (s s' : PartyManager) : Prop := ∃ c : Cmd, s' = applyCmd s c

inductive Reach : PartyManager → Prop where
  | init (timeout : Nat) : Reach (initPM timeout)
  | step {s s' : PartyManager} : Reach s → Step s s' → Reach s'

def execFrom (s : PartyManager) (cmds : List Cmd) : PartyManager :=
  cmds.foldl applyCmd s

/-! ## The message codec (`src/unnamed/part_003`)

The wire format is JSON; `encoding/json` is embedded through an explicit JSON
value type.  `json.Marshal` of each payload struct produces an object with
the struct's `json:"..."` keys in field order (`omitempty` drops a zero
`requestType`); `json.Unmarshal` into a struct reads the known keys, treats a
missing or null key as the field's zero value, rejects a value of the wrong
shape, and rejects a non-object document.
-/

namespace Messages

inductive Json where
  | str (s : String)
  | num (n : Int)
  | bool (b : Bool)
  | arr (elems : List Json)
  | obj (fields : List (String × Json))
  | null

/-- A `ServerMessage` frame (part_003 lines 61-64): the tag and the raw
payload document.  The Go fields are named `Type` and `Payload`; `Type` is
reserved in Lean, so both are lowercased. -/
structure ServerMessage where
  type : String
  payload : Json

def ServerMessageConnectSuccess : String := "connectSuccess"
def ServerMessagePartyJoined : String := "partyJoined"
def ServerMessagePartyLeft : String := "partyLeft"
def ServerMessageQueueJoined : String := "queueJoined"
def ServerMessageError : String := "error"
def ServerMessageMemberUpdate : String := "memberUpdate"
def ServerMessageGameOver : String := "gameOver"
def ServerMessageGameStarted : String := "gameStarted"

/-- part_003 lines 66-68 (this older revision has no `secretKey` field). -/
structure ServerMessageConnectSuccessPayload where
  ClientID : String
  deriving DecidableEq

/-- part_003 lines 70-73. -/
structure ServerMessageGameStartedPayload where
  CountdownSeconds : Int
  Timestamp : Int
  deriving DecidableEq

/-- part_003 lines 75-78. -/
structure ServerMessageGameEndedPayload where
  WinnerID : String
  Reason : String
  deriving DecidableEq

/-- part_003 lines 80-82. -/
structure ServerMessagePartyJoinedPayload where
  PartyID : String
  deriving DecidableEq

/-- `PartyMemberInfo` (part_001 lines 25-29), the element type of
`memberUpdate`. -/
structure PartyMemberInfo where
  ID : String
  IsHost : Bool
  IsConnected : Bool
  deriving DecidableEq

/-- part_003 lines 84-86. -/
structure ServerMessageMemberUpdatePayload where
  Members : List PartyMemberInfo
  deriving DecidableEq

/-- part_003 line 88. -/
structure ServerMessageQueueJoinedPayload : Type where
  deriving DecidableEq

/-- part_003 lines 90-94. -/
structure ServerMessageErrorPayload where
  Code : String
  Message : String
  RequestType : String
  deriving DecidableEq

/-! ### `json.Marshal` of each outbound payload -/

def marshalConnectSuccess (p : ServerMessageConnectSuccessPayload) : Json :=
  Json.obj [("clientId", Json.str p.ClientID)]

def marshalGameStarted (p : ServerMessageGameStartedPayload) : Json :=
  Json.obj [("countdownSeconds", Json.num p.CountdownSeconds),
            ("timestamp", Json.num p.Timestamp)]

def marshalGameEnded (p : ServerMessageGameEndedPayload) : Json :=
  Json.obj [("winnerId", Json.str p.WinnerID), ("reason", Json.str p.Reason)]

def marshalPartyJoined (p : ServerMessagePartyJoinedPayload) : Json :=
  Json.obj [("partyId", Json.str p.PartyID)]

def marshalPartyMemberInfo (m : PartyMemberInfo) : Json :=
  Json.obj [("id", Json.str m.ID), ("isHost", Json.bool m.IsHost),
            ("isConnected", Json.bool m.IsConnected)]

def marshalMemberUpdate (p : ServerMessageMemberUpdatePayload) : Json :=
  Json.obj [("members", Json.arr (p.Members.map marshalPartyMemberInfo))]

def marshalQueueJoined (_p : ServerMessageQueueJoinedPayload) : Json :=
  Json.obj []

/-- `requestType` carries `omitempty`. -/
def marshalError (p : ServerMessageErrorPayload) : Json :=
  Json.obj ([("code", Json.str p.Code), ("message", Json.str p.Message)] ++
    (if p.RequestType = "" then [] else [("requestType", Json.str p.RequestType)]))

/-! ### `json.Unmarshal` into each payload struct -/

def getStr : Json → Option String
  | Json.str s => some s
  | _ => none

def getInt : Json → Option Int
  | Json.num n => some n
  | _ => none

def getBool : Json → Option Bool
  | Json.bool b => some b
  | _ => none

/-- Read one struct field: a missing or null key yields the zero value,
a present key must decode. -/
def decodeField {α : Type _} (fields : List (String × Json)) (key : String)
    (dec : Json → Option α) (zero : α) : Option α :=
  match lookupA fields key with
  | none => some zero
  | some Json.null => some zero
  | some j => dec j

def unmarshalConnectSuccess : Json → Option ServerMessageConnectSuccessPayload
  | Json.obj fs =>
    (decodeField fs "clientId" getStr "").map (fun c => { ClientID := c })
  | _ => none

def unmarshalQueueJoined : Json → Option ServerMessageQueueJoinedPayload
  | Json.obj _ => some {}
  | _ => none

def unmarshalPartyJoined : Json → Option ServerMessagePartyJoinedPayload
  | Json.obj fs =>
    (decodeField fs "partyId" getStr "").map (fun c => { PartyID := c })
  | _ => none

def unmarshalError : Json → Option ServerMessageErrorPayload
  | Json.obj fs =>
    match decodeField fs "code" getStr "", decodeField fs "message" getStr "",
          decodeField fs "requestType" getStr "" with
    | some c, some m, some r => some { Code := c, Message := m, RequestType := r }
    | _, _, _ => none
  | _ => none

def unmarshalPartyMemberInfo : Json → Option PartyMemberInfo
  | Json.obj fs =>
    match decodeField fs "id" getStr "", decodeField fs "isHost" getBool false,
          decodeField fs "isConnected" getBool false with
    | some i, some h, some c => some { ID := i, IsHost := h, IsConnected := c }
    | _, _, _ => none
  | _ => none

def decodeMemberList : List Json → Option (List PartyMemberInfo)
  | [] => some []
  | x :: xs =>
    match unmarshalPartyMemberInfo x, decodeMemberList xs with
    | some m, some ms => some (m :: ms)
    | _, _ => none

def unmarshalMemberUpdate : Json → Option ServerMessageMemberUpdatePayload
  | Json.obj fs =>
    match lookupA fs "members" with
    | none => some { Members := [] }
    | some Json.null => some { Members := [] }
    | some (Json.arr xs) => (decodeMemberList xs).map (fun ms => { Members := ms })
    | some _ => none
  | _ => none

/-- The typed value returned (as `any`) by `UnmarshalServerMessage`. -/
inductive ServerPayload where
  | connectSuccess (p : ServerMessageConnectSuccessPayload)
  | queueJoined (p : ServerMessageQueueJoinedPayload)
  | partyJoined (p : ServerMessagePartyJoinedPayload)
  | error (p : ServerMessageErrorPayload)
  | memberUpdate (p : ServerMessageMemberUpdatePayload)
  deriving DecidableEq

/-- `UnmarshalServerMessage` (part_003 lines 100-126): dispatch on the tag;
only five of the eight outbound tags are handled, every other tag reaches the
default branch. -/
def UnmarshalServerMessage (msg : ServerMessage) : Except String ServerPayload :=
  if msg.type = ServerMessageConnectSuccess then
    match unmarshalConnectSuccess msg.payload with
    | some p => Except.ok (ServerPayload.connectSuccess p)
    | none => Except.error "json: cannot unmarshal payload"
  else if msg.type = ServerMessageQueueJoined then
    match unmarshalQueueJoined msg.payload with
    | some p => Except.ok (ServerPayload.queueJoined p)
    | none => Except.error "json: cannot unmarshal payload"
  else if msg.type = ServerMessagePartyJoined then
    match unmarshalPartyJoined msg.payload with
    | some p => Except.ok (ServerPayload.partyJoined p)
    | none => Except.error "json: cannot unmarshal payload"
  else if msg.type = ServerMessageError then
    match unmarshalError msg.payload with
    | some p => Except.ok (ServerPayload.error p)
    | none => Except.error "json: cannot unmarshal payload"
  else if msg.type = ServerMessageMemberUpdate then
    match unmarshalMemberUpdate msg.payload with
    | some p => Except.ok (ServerPayload.memberUpdate p)
    | none => Except.error "json: cannot unmarshal payload"
  else
    Except.error ("unknown server message type: " ++ msg.type)

end Messages

/-! ## Coordinator invariants

`memberForwardB` is the forward direction of the spec's membership
invariant: every `Members` entry points at an existing party that contains
the client.  `memberBackwardB` is the converse: every member of every party
is indexed in `Members`.  `publicPartyLiveB` is the part of the
`PublicParty` invariant that the code maintains.  `partyKeysFresh` is the
auxiliary freshness of the party-id counter needed for the induction.
-/

def memberEntryOk (ps : List (PartyID × Party)) (e : ClientID × PartyID) : Bool :=
  match lookupA ps e.2 with
  | some p => (lookupA p.Members e.1).isSome
  | none => false

def memberForwardB (s : PartyManager) : Bool :=
  s.Members.all (memberEntryOk s.Parties)

def memberBackwardB (s : PartyManager) : Bool :=
  s.Parties.all (fun pe =>
    pe.2.Members.all (fun me => (lookupA s.Members me.1).isSome))

/-- The full bidirectional invariant claimed by the spec ("For all ClientID
`c`: `c ∈ Members` ⟺ `c ∈ Parties[Members[c]].members`"). -/
def membersPartiesAgree (s : PartyManager) : Bool :=
  memberForwardB s && memberBackwardB s

def publicPartyLiveB (s : PartyManager) : Bool :=
  match s.PublicParty with
  | none => true
  | some pid => (lookupA s.Parties pid).isSome

/-- The spec's full `PublicParty` invariant (§8 invariant 4): non-nil implies
present in `Parties`, not full, and without an active game. -/
def publicPartyOpenB (s : PartyManager) : Bool :=
  match s.PublicParty with
  | none => true
  | some pid =>
    match lookupA s.Parties pid with
    | some p => !p.IsFull && p.game = none
    | none => false

def ForwardL (ms : List (ClientID × PartyID)) (ps : List (PartyID × Party)) : Prop :=
  ∀ e ∈ ms, ∃ p, lookupA ps e.2 = some p ∧ (lookupA p.Members e.1).isSome = true

/-- The inductive invariant of the coordinator loop. -/
structure Inv (s : PartyManager) : Prop where
  fresh : ∀ e ∈ s.Parties, e.1 < s.nextPartyId
  forward : ForwardL s.Members s.Parties
  pub : ∀ pid, s.PublicParty = some pid → (lookupA s.Parties pid).isSome = true


/-! ## Concrete scenarios

Command traces used by the counterexamples and witnesses below; each is a
run of the coordinator from the initial state.
-/

/-- Seven clients connect; six fill the public party through the queue; the
seventh rolls over into a second public party; the first client then joins
that second party explicitly (exercising the `AlreadyInParty` fall-through)
and finally leaves it. -/
def c1Trace : List Cmd :=
  [Cmd.connect, Cmd.connect, Cmd.connect, Cmd.connect, Cmd.connect, Cmd.connect, Cmd.connect,
   Cmd.addClient 0 0 0 0 0, Cmd.queueDrain,
   Cmd.addClient 0 1 0 0 0, Cmd.queueDrain,
   Cmd.addClient 0 2 0 0 0, Cmd.queueDrain,
   Cmd.addClient 0 3 0 0 0, Cmd.queueDrain,
   Cmd.addClient 0 4 0 0 0, Cmd.queueDrain,
   Cmd.addClient 0 5 0 0 0, Cmd.queueDrain,
   Cmd.addClient 0 6 0 0 0, Cmd.queueDrain,
   Cmd.addClient 0 0 0 2 0,
   Cmd.removeClient 0]

/-- Two clients queue into the public party and the host starts a game. -/
def c6Trace : List Cmd :=
  [Cmd.connect, Cmd.connect,
   Cmd.addClient 0 0 0 0 0, Cmd.queueDrain,
   Cmd.addClient 0 1 0 0 0, Cmd.queueDrain,
   Cmd.startGame 0]

/-- One client queues into a party, disconnects at time 2, and a fresh
connection (the reconnecting browser) arrives. -/
def reconnectTrace : List Cmd :=
  [Cmd.connect, Cmd.addClient 0 0 0 0 0, Cmd.queueDrain, Cmd.disconnect 2 0, Cmd.connect]

/-- Two clients queue into one public party. -/
def pairTrace : List Cmd :=
  [Cmd.connect, Cmd.connect,
   Cmd.addClient 0 0 0 0 0, Cmd.queueDrain,
   Cmd.addClient 0 1 0 0 0, Cmd.queueDrain]

/-- Six clients fill the public party; a seventh client is connected. -/
def c5Trace : List Cmd :=
  [Cmd.connect, Cmd.connect, Cmd.connect, Cmd.connect, Cmd.connect, Cmd.connect, Cmd.connect,
   Cmd.addClient 0 0 0 0 0, Cmd.queueDrain,
   Cmd.addClient 0 1 0 0 0, Cmd.queueDrain,
   Cmd.addClient 0 2 0 0 0, Cmd.queueDrain,
   Cmd.addClient 0 3 0 0 0, Cmd.queueDrain,
   Cmd.addClient 0 4 0 0 0, Cmd.queueDrain,
   Cmd.addClient 0 5 0 0 0, Cmd.queueDrain]

def isErrorMsg : Msg → Bool
  | Msg.error _ _ _ => true
  | _ => false

/-- The condition under which `handleQueueJoin` allocates a fresh public
party: the pointer is nil, stale, or the party is full (`party.go` line
549). -/
def publicPartyNeedsNew (s : PartyManager) : Bool :=
  match s.PublicParty with
  | none => true
  | some pid0 =>
    match lookupA s.Parties pid0 with
    | none => true
    | some p0 => p0.IsFull

/-- A party value violating the host invariant (`HostID` not a member),
used to refute the literal reading of the duplicate-`AddClient` claim. -/
def c10Party : Party :=
  { ID := 1, Members := [(5, { Client := 0, IsConnected := false })], HostID := 7, game := none }

/-- The two-member public party produced by `pairTrace`. -/
def pairParty : Party :=
  { ID := 1,
    Members := [(1, { Client := 0, IsConnected := true }), (2, { Client := 1, IsConnected := true })],
    HostID := 1, game := none }

def reconState : PartyManager := execFrom (initPM 15) reconnectTrace

/-- The party produced by `reconnectTrace` (its sole member is marked
disconnected). -/
def reconParty : Party :=
  { ID := 1, Members := [(1, { Client := 0, IsConnected := false })], HostID := 1, game := none }

def oldClientW : Client := { ID := 1, Secret := 1, conn := 1, send := 1, game := none }

def newClientW : Client := { ID := 2, Secret := 2, conn := 2, send := 2, game := none }

def pairState : PartyManager := execFrom (initPM 15) pairTrace

def hostClientW : Client := { ID := 1, Secret := 1, conn := 1, send := 1, game := none }

/-! ## Proofs -/

section AssocLemmas

variable {α : Type _} {β : Type _} [DecidableEq α]

@[simp] theorem lookupA_nil (k : α) : lookupA ([] : List (α × β)) k = none := rfl

theorem lookupA_cons (e : α × β) (t : List (α × β)) (k : α) :
    lookupA (e :: t) k = if e.1 = k then some e.2 else lookupA t k := rfl

@[simp] theorem lookupA_insertA_self (l : List (α × β)) (k : α) (v : β) :
    lookupA (insertA l k v) k = some v := by
  induction l with
  | nil => simp [insertA, lookupA]
  | cons e t ih =>
    by_cases h : e.1 = k
    · simp [insertA, h, lookupA]
    · simp [insertA, h, lookupA, ih]

theorem lookupA_insertA_ne (l : List (α × β)) (k k' : α) (v : β) (h : k' ≠ k) :
    lookupA (insertA l k v) k' = lookupA l k' := by
  have hk : ¬ k = k' := fun h' => h h'.symm
  have hk' : ¬ k' = k := h
  induction l with
  | nil => simp [insertA, lookupA, hk]
  | cons e t ih =>
    by_cases he : e.1 = k
    · subst he
      simp [insertA, lookupA, hk]
    · by_cases he' : e.1 = k'
      · simp [insertA, he, lookupA, he', hk']
      · simp [insertA, he, lookupA, he', ih]

@[simp] theorem lookupA_eraseA_self (l : List (α × β)) (k : α) :
    lookupA (eraseA l k) k = none := by
  induction l with
  | nil => rfl
  | cons e t ih =>
    by_cases h : e.1 = k
    · simpa [eraseA, h] using ih
    · simpa [eraseA, h, lookupA] using ih

theorem lookupA_eraseA_ne (l : List (α × β)) (k k' : α) (h : k' ≠ k) :
    lookupA (eraseA l k) k' = lookupA l k' := by
  have hk : ¬ k = k' := fun h' => h h'.symm
  have hk' : ¬ k' = k := h
  induction l with
  | nil => rfl
  | cons e t ih =>
    by_cases he : e.1 = k
    · simp [eraseA, he, lookupA, hk, ih]
    · by_cases he' : e.1 = k'
      · simp [eraseA, he, lookupA, he', hk']
      · simp [eraseA, he, lookupA, he', ih]

theorem mem_insertA {l : List (α × β)} {k : α} {v : β} {e : α × β}
    (h : e ∈ insertA l k v) : e = (k, v) ∨ e ∈ l := by
  induction l with
  | nil => simpa [insertA] using h
  | cons e' t ih =>
    by_cases he : e'.1 = k
    · rw [insertA, if_pos he] at h
      rcases List.mem_cons.1 h with h1 | h1
      · exact Or.inl h1
      · exact Or.inr (List.mem_cons_of_mem _ h1)
    · rw [insertA, if_neg he] at h
      rcases List.mem_cons.1 h with h1 | h1
      · exact Or.inr (h1 ▸ List.mem_cons_self _ _)
      · rcases ih h1 with h2 | h2
        · exact Or.inl h2
        · exact Or.inr (List.mem_cons_of_mem _ h2)

theorem mem_eraseA {l : List (α × β)} {k : α} {e : α × β} (h : e ∈ eraseA l k) :
    e ∈ l ∧ e.1 ≠ k := by
  induction l with
  | nil => simp [eraseA] at h
  | cons e' t ih =>
    by_cases he : e'.1 = k
    · rw [eraseA, if_pos he] at h
      exact ⟨List.mem_cons_of_mem _ (ih h).1, (ih h).2⟩
    · rw [eraseA, if_neg he] at h
      rcases List.mem_cons.1 h with h1 | h1
      · exact ⟨h1 ▸ List.mem_cons_self _ _, h1 ▸ he⟩
      · exact ⟨List.mem_cons_of_mem _ (ih h1).1, (ih h1).2⟩

theorem length_insertA_of_lookup_isSome (l : List (α × β)) (k : α) (v : β)
    (h : (lookupA l k).isSome = true) :
    (insertA l k v).length = l.length := by
  induction l with
  | nil => simp [lookupA] at h
  | cons e t ih =>
    by_cases he : e.1 = k
    · simp [insertA, he]
    · have h' : (lookupA t k).isSome = true := by
        simpa [lookupA, he] using h
      simp [insertA, he, ih h']

theorem lookupA_mem {l : List (α × β)} {k : α} {v : β} (h : lookupA l k = some v) :
    (k, v) ∈ l := by
  induction l with
  | nil => simp [lookupA] at h
  | cons e t ih =>
    by_cases he : e.1 = k
    · rw [lookupA, if_pos he] at h
      have he2 : e.2 = v := Option.some.inj h
      have : e = (k, v) := by
        cases e
        simp only at he he2
        rw [he, he2]
      exact this ▸ List.mem_cons_self _ _
    · rw [lookupA, if_neg he] at h
      exact List.mem_cons_of_mem _ (ih h)

theorem lookupA_isSome_of_mem {l : List (α × β)} {e : α × β} (h : e ∈ l) :
    (lookupA l e.1).isSome = true := by
  induction l with
  | nil => simp at h
  | cons e' t ih =>
    rcases List.mem_cons.1 h with h1 | h1
    · subst h1; simp [lookupA]
    · by_cases he : e'.1 = e.1
      · simp [lookupA, he]
      · simpa [lookupA, he] using ih h1

end AssocLemmas

theorem reach_execFrom {s : PartyManager} (h : Reach s) (cmds : List Cmd) :
    Reach (execFrom s cmds) := by
  induction cmds generalizing s with
  | nil => exact h
  | cons c t ih => exact ih (Reach.step h ⟨c, rfl⟩)

theorem memberEntryOk_iff {ps : List (PartyID × Party)} {e : ClientID × PartyID} :
    memberEntryOk ps e = true ↔
      ∃ p, lookupA ps e.2 = some p ∧ (lookupA p.Members e.1).isSome = true := by
  unfold memberEntryOk
  cases h : lookupA ps e.2 with
  | none => simp
  | some p => simp

theorem memberForwardB_iff {s : PartyManager} :
    memberForwardB s = true ↔ ForwardL s.Members s.Parties := by
  unfold memberForwardB ForwardL
  rw [List.all_eq_true]
  constructor
  · intro h e he
    exact memberEntryOk_iff.1 (h e he)
  · intro h e he
    exact memberEntryOk_iff.2 (h e he)


/-! ### Preservation toolkit -/

theorem forward_of_subset {ms ms' : List (ClientID × PartyID)}
    {ps : List (PartyID × Party)} (hsub : ∀ e ∈ ms', e ∈ ms)
    (h : ForwardL ms ps) : ForwardL ms' ps :=
  fun e he => h e (hsub e he)

theorem forward_eraseA {ms : List (ClientID × PartyID)} {ps : List (PartyID × Party)}
    (h : ForwardL ms ps) (cid : ClientID) : ForwardL (eraseA ms cid) ps :=
  forward_of_subset (fun _ he => (mem_eraseA he).1) h

theorem forward_insert_member {ms : List (ClientID × PartyID)}
    {ps : List (PartyID × Party)} {cid : ClientID} {pid : PartyID} (p : Party)
    (h : ForwardL ms ps) (hp : lookupA ps pid = some p)
    (hm : (lookupA p.Members cid).isSome = true) :
    ForwardL (insertA ms cid pid) ps := by
  intro e he
  rcases mem_insertA he with h1 | h1
  · subst h1
    exact ⟨p, hp, hm⟩
  · exact h e h1

theorem forward_update_party {ms : List (ClientID × PartyID)}
    {ps : List (PartyID × Party)} {pid : PartyID} {p p1 : Party}
    (h : ForwardL ms ps) (hp : lookupA ps pid = some p)
    (hmono : ∀ c, (lookupA p.Members c).isSome = true →
      (lookupA p1.Members c).isSome = true) :
    ForwardL ms (insertA ps pid p1) := by
  intro e he
  rcases h e he with ⟨q, hq, hqm⟩
  by_cases hpe : e.2 = pid
  · subst hpe
    have : q = p := by rw [hq] at hp; exact Option.some.inj hp
    subst this
    exact ⟨p1, by simp, hmono _ hqm⟩
  · exact ⟨q, by rw [lookupA_insertA_ne _ _ _ _ hpe]; exact hq, hqm⟩

theorem forward_insert_party_fresh {ms : List (ClientID × PartyID)}
    {ps : List (PartyID × Party)} {pid : PartyID} {p1 : Party}
    (h : ForwardL ms ps) (hfresh : lookupA ps pid = none) :
    ForwardL ms (insertA ps pid p1) := by
  intro e he
  rcases h e he with ⟨q, hq, hqm⟩
  by_cases hpe : e.2 = pid
  · rw [hpe, hfresh] at hq
    cases hq
  · exact ⟨q, by rw [lookupA_insertA_ne _ _ _ _ hpe]; exact hq, hqm⟩

theorem forward_erase_party {ms : List (ClientID × PartyID)}
    {ps : List (PartyID × Party)} {pid : PartyID}
    (h : ForwardL ms ps) (hnone : ∀ e ∈ ms, e.2 ≠ pid) :
    ForwardL ms (eraseA ps pid) := by
  intro e he
  rcases h e he with ⟨q, hq, hqm⟩
  exact ⟨q, by rw [lookupA_eraseA_ne _ _ _ (hnone e he)]; exact hq, hqm⟩

theorem isSome_lookup_MarkClientConnected (p : Party) (cid c : ClientID) :
    (lookupA (p.MarkClientConnected cid).Members c).isSome =
      (lookupA p.Members c).isSome := by
  unfold Party.MarkClientConnected
  cases h : lookupA p.Members cid with
  | none => rfl
  | some m =>
    by_cases hc : c = cid
    · subst hc; simp [h]
    · simp [lookupA_insertA_ne _ _ _ _ hc]

theorem isSome_lookup_MarkClientDisconnected (p : Party) (cid c : ClientID) :
    (lookupA (p.MarkClientDisconnected cid).Members c).isSome =
      (lookupA p.Members c).isSome := by
  unfold Party.MarkClientDisconnected
  cases h : lookupA p.Members cid with
  | none => rfl
  | some m =>
    by_cases hc : c = cid
    · subst hc; simp [h]
    · simp [lookupA_insertA_ne _ _ _ _ hc]

theorem isSome_lookup_AddClient_of_isSome (p : Party) (ref : ClientRef)
    (cid c : ClientID) (h : (lookupA p.Members c).isSome = true) :
    (lookupA (p.AddClient ref cid).Members c).isSome = true := by
  unfold Party.AddClient
  by_cases hc : c = cid
  · subst hc; simp
  · simpa [lookupA_insertA_ne _ _ _ _ hc] using h

theorem isSome_lookup_AddClient_self (p : Party) (ref : ClientRef) (cid : ClientID) :
    (lookupA (p.AddClient ref cid).Members cid).isSome = true := by
  unfold Party.AddClient
  simp

theorem lookup_RemoveClient_ne (p : Party) (cid c : ClientID) (h : c ≠ cid) :
    lookupA (p.RemoveClient cid).Members c = lookupA p.Members c := by
  unfold Party.RemoveClient
  exact lookupA_eraseA_ne _ _ _ h

theorem fresh_of_lookup_isSome {ps : List (PartyID × Party)} {n : Nat} {pid : PartyID}
    (hfresh : ∀ e ∈ ps, e.1 < n) (h : (lookupA ps pid).isSome = true) : pid < n := by
  cases hq : lookupA ps pid with
  | none => rw [hq] at h; cases h
  | some p => exact hfresh _ (lookupA_mem hq)

theorem fresh_insertA {ps : List (PartyID × Party)} {n : Nat} {pid : PartyID} {p : Party}
    (hfresh : ∀ e ∈ ps, e.1 < n) (hpid : pid < n) :
    ∀ e ∈ insertA ps pid p, e.1 < n := by
  intro e he
  rcases mem_insertA he with h1 | h1
  · subst h1; exact hpid
  · exact hfresh _ h1

theorem fresh_eraseA {ps : List (PartyID × Party)} {n : Nat} {pid : PartyID}
    (hfresh : ∀ e ∈ ps, e.1 < n) :
    ∀ e ∈ eraseA ps pid, e.1 < n :=
  fun _e he => hfresh _ (mem_eraseA he).1

theorem lookupA_of_keys_lt {ps : List (PartyID × Party)} {n : Nat}
    (hfresh : ∀ e ∈ ps, e.1 < n) : lookupA ps n = none := by
  cases hq : lookupA ps n with
  | none => rfl
  | some p =>
    have h1 : n < n := hfresh _ (lookupA_mem hq)
    exact absurd h1 (lt_irrefl n)

theorem isSome_lookupA_insertA {α : Type _} {β : Type _} [DecidableEq α]
    {l : List (α × β)} {k k' : α} {v : β} (h : (lookupA l k').isSome = true) :
    (lookupA (insertA l k v) k').isSome = true := by
  by_cases hk : k' = k
  · subst hk; simp
  · rwa [lookupA_insertA_ne _ _ _ _ hk]

theorem Party.Members_eq_nil_of_IsEmpty {p : Party} (h : p.IsEmpty = true) :
    p.Members = [] := by
  unfold Party.IsEmpty at h
  simpa [List.length_eq_zero] using h

theorem forward_remove {ms : List (ClientID × PartyID)} {ps : List (PartyID × Party)}
    {pid : PartyID} {p : Party} {cid : ClientID}
    (h : ForwardL ms ps) (hp : lookupA ps pid = some p) :
    ForwardL (eraseA ms cid) (insertA ps pid (p.RemoveClient cid)) := by
  intro e he
  rcases mem_eraseA he with ⟨hmem, hne⟩
  rcases h e hmem with ⟨q, hq, hqm⟩
  by_cases hpe : e.2 = pid
  · subst hpe
    have hqp : q = p := by rw [hq] at hp; exact Option.some.inj hp
    subst hqp
    refine ⟨q.RemoveClient cid, by simp, ?_⟩
    rw [lookup_RemoveClient_ne _ _ _ hne]
    exact hqm
  · exact ⟨q, by rw [lookupA_insertA_ne _ _ _ _ hpe]; exact hq, hqm⟩

/-! ### Invariant preservation, one lemma per coordinator operation -/

theorem inv_removeClientFromParty {s : PartyManager} (hI : Inv s) (cid : ClientID)
    (tok : Option SendTok) (cmt : String) :
    Inv (removeClientFromParty s cid tok cmt).1 := by
  unfold removeClientFromParty
  split
  · exact hI
  next pid hm =>
    split
    next hp => exact ⟨hI.fresh, forward_eraseA hI.forward cid, hI.pub⟩
    next p hp =>
      have hpidlt : pid < s.nextPartyId :=
        fresh_of_lookup_isSome hI.fresh (by rw [hp]; rfl)
      have hfwd1 : ForwardL (eraseA s.Members cid)
          (insertA s.Parties pid (p.RemoveClient cid)) :=
        forward_remove hI.forward hp
      dsimp only
      split
      next hempty =>
        refine ⟨?_, ?_, ?_⟩
        · exact fresh_eraseA (fresh_insertA hI.fresh hpidlt)
        · refine forward_erase_party hfwd1 ?_
          intro e he hpe
          rcases hfwd1 e he with ⟨q, hq, hqm⟩
          rw [hpe] at hq
          have hq1 : q = p.RemoveClient cid := by
            rw [lookupA_insertA_self] at hq
            exact (Option.some.inj hq).symm
          rw [hq1, Party.Members_eq_nil_of_IsEmpty hempty] at hqm
          simp [lookupA] at hqm
        · intro q hq
          simp only at hq
          by_cases hcond : s.PublicParty = some pid
          · rw [if_pos hcond] at hq; cases hq
          · rw [if_neg hcond] at hq
            have hqpid : q ≠ pid := by
              intro h'
              exact hcond (by rw [hq, h'])
            rw [lookupA_eraseA_ne _ _ _ hqpid, lookupA_insertA_ne _ _ _ _ hqpid]
            exact hI.pub q hq
      next hempty =>
        refine ⟨fresh_insertA hI.fresh hpidlt, hfwd1, ?_⟩
        intro q hq
        exact isSome_lookupA_insertA (hI.pub q hq)

theorem inv_handleAddClient {s : PartyManager} (hI : Inv s) (now : Nat)
    (ref : ClientRef) (cid : ClientID) (pid : PartyID) (sec : SecretKey) :
    Inv (handleAddClient s now ref cid pid sec).1 := by
  unfold handleAddClient
  split
  · exact hI
  next cNew hc =>
    split
    next entry hab =>
      split
      · exact hI
      next cOld hold =>
        split
        next hok =>
          split
          next hmem => exact ⟨hI.fresh, hI.forward, hI.pub⟩
          next realPid hmem =>
            split
            next hp => exact ⟨hI.fresh, forward_eraseA hI.forward cid, hI.pub⟩
            next party hp =>
              refine ⟨?_, ?_, ?_⟩
              · exact fresh_insertA hI.fresh
                  (fresh_of_lookup_isSome hI.fresh (by rw [hp]; rfl))
              · refine forward_update_party hI.forward hp ?_
                intro c hcs
                rw [isSome_lookup_MarkClientConnected]
                exact hcs
              · intro q hq
                exact isSome_lookupA_insertA (hI.pub q hq)
        next hok => exact ⟨hI.fresh, hI.forward, hI.pub⟩
    next hab =>
      split
      next hpid =>
        split
        next hcap => exact ⟨hI.fresh, hI.forward, hI.pub⟩
        next hcap => exact hI
      next hpid =>
        split
        next p hp =>
          dsimp only
          refine ⟨?_, ?_, ?_⟩
          · exact fresh_insertA hI.fresh
              (fresh_of_lookup_isSome hI.fresh (by rw [hp]; rfl))
          · refine forward_insert_member (p.AddClient ref cNew.ID)
              (forward_update_party hI.forward hp
                (fun c hcs => isSome_lookup_AddClient_of_isSome p ref cNew.ID c hcs)) ?_ ?_
            · exact lookupA_insertA_self _ _ _
            · exact isSome_lookup_AddClient_self p ref cNew.ID
          · intro q hq
            exact isSome_lookupA_insertA (hI.pub q hq)
        next hp => exact hI

theorem inv_handleRemoveClient {s : PartyManager} (hI : Inv s) (ref : ClientRef) :
    Inv (handleRemoveClient s ref).1 := by
  unfold handleRemoveClient
  split
  · exact hI
  next c hc => exact inv_removeClientFromParty hI c.ID (some c.send) "leave"

theorem inv_handleStartGame {s : PartyManager} (hI : Inv s) (ref : ClientRef) :
    Inv (handleStartGame s ref).1 := by
  unfold handleStartGame
  split
  · exact hI
  next c hc =>
    split
    next hm => exact hI
    next pid hm =>
      split
      next hp => exact hI
      next p hp =>
        split
        next hhost => exact hI
        next hhost =>
          split
          next hsize => exact hI
          next hsize =>
            refine ⟨?_, ?_, ?_⟩
            · exact fresh_insertA hI.fresh
                (fresh_of_lookup_isSome hI.fresh (by rw [hp]; rfl))
            · exact forward_update_party hI.forward hp (fun c' hcs => hcs)
            · intro q hq
              exact isSome_lookupA_insertA (hI.pub q hq)

theorem inv_disconnectParties {s : PartyManager} (hI : Inv s) (cid : ClientID) :
    (∀ e ∈ (disconnectParties s cid).1, e.1 < s.nextPartyId) ∧
      ForwardL s.Members (disconnectParties s cid).1 ∧
      (∀ q, s.PublicParty = some q →
        (lookupA (disconnectParties s cid).1 q).isSome = true) := by
  unfold disconnectParties
  split
  next pid hm =>
    split
    next p hp =>
      refine ⟨?_, ?_, ?_⟩
      · exact fresh_insertA hI.fresh
          (fresh_of_lookup_isSome hI.fresh (by rw [hp]; rfl))
      · refine forward_update_party hI.forward hp ?_
        intro c' hcs
        rw [isSome_lookup_MarkClientDisconnected]
        exact hcs
      · intro q hq
        exact isSome_lookupA_insertA (hI.pub q hq)
    next hp => exact ⟨hI.fresh, hI.forward, hI.pub⟩
  next hm => exact ⟨hI.fresh, hI.forward, hI.pub⟩

theorem inv_handleDisconnect {s : PartyManager} (hI : Inv s) (now : Nat)
    (ref : ClientRef) : Inv (handleDisconnect s now ref).1 := by
  unfold handleDisconnect
  split
  · exact hI
  next c hc =>
    rcases inv_disconnectParties hI c.ID with ⟨h1, h2, h3⟩
    exact ⟨h1, h2, h3⟩

theorem inv_cleanupStep {acc : PartyManager × List Out} (hI : Inv acc.1) (now : Nat)
    (e : ClientID × AbandonedEntry) : Inv (cleanupStep now acc e).1 := by
  unfold cleanupStep
  split
  next hexp =>
    exact inv_removeClientFromParty (s := { acc.1 with Abandoned := eraseA acc.1.Abandoned e.1 })
      ⟨hI.fresh, hI.forward, hI.pub⟩ e.1 none ""
  next hexp => exact hI

theorem inv_cleanup_foldl (now : Nat) (l : List (ClientID × AbandonedEntry)) :
    ∀ acc : PartyManager × List Out, Inv acc.1 →
      Inv (l.foldl (cleanupStep now) acc).1 := by
  induction l with
  | nil => intro acc h; exact h
  | cons e t ih =>
    intro acc h
    exact ih _ (inv_cleanupStep h now e)

theorem inv_handleCleanup {s : PartyManager} (hI : Inv s) (now : Nat) :
    Inv (handleCleanup s now).1 :=
  inv_cleanup_foldl now s.Abandoned (s, []) hI

theorem inv_allocPublicParty {s : PartyManager} (hI : Inv s) :
    Inv (allocPublicParty s).2 := by
  unfold allocPublicParty
  refine ⟨?_, ?_, ?_⟩
  · refine fresh_insertA (fun e he => ?_) (Nat.lt_succ_self _)
    exact Nat.lt_succ_of_lt (hI.fresh e he)
  · exact forward_insert_party_fresh hI.forward (lookupA_of_keys_lt hI.fresh)
  · intro q hq
    have hq1 : s.nextPartyId = q := Option.some.inj hq
    rw [← hq1, lookupA_insertA_self]
    rfl

theorem inv_choosePublicParty {s : PartyManager} (hI : Inv s) :
    Inv (choosePublicParty s).2 := by
  unfold choosePublicParty
  split
  · exact inv_allocPublicParty hI
  next pid0 hpp =>
    split
    next hp => exact inv_allocPublicParty hI
    next p0 hp =>
      split
      next hfull => exact inv_allocPublicParty hI
      next hfull => exact hI

theorem inv_queueJoinInto {s1 : PartyManager} (hI : Inv s1) (pid : PartyID)
    (ref : ClientRef) (c : Client) : Inv (queueJoinInto s1 pid ref c).1 := by
  unfold queueJoinInto
  split
  · exact hI
  next p hp =>
    have hlt : pid < s1.nextPartyId :=
      fresh_of_lookup_isSome hI.fresh (by rw [hp]; rfl)
    dsimp only
    refine ⟨fresh_insertA hI.fresh hlt, ?_, ?_⟩
    · refine forward_insert_member (p.AddClient ref c.ID)
        (forward_update_party hI.forward hp
          (fun c' hcs => isSome_lookup_AddClient_of_isSome p ref c.ID c' hcs)) ?_ ?_
      · exact lookupA_insertA_self _ _ _
      · exact isSome_lookup_AddClient_self p ref c.ID
    · intro q hq
      exact isSome_lookupA_insertA (hI.pub q hq)

theorem inv_handleQueueJoin {s : PartyManager} (hI : Inv s) (ref : ClientRef) :
    Inv (handleQueueJoin s ref).1 := by
  unfold handleQueueJoin
  split
  · exact hI
  next c hc => exact inv_queueJoinInto (inv_choosePublicParty hI) _ ref c

theorem inv_handleGameEnded {s : PartyManager} (hI : Inv s) (gid : GameID) :
    Inv (handleGameEnded s gid) := by
  unfold handleGameEnded
  split
  next g hg => exact ⟨hI.fresh, hI.forward, hI.pub⟩
  next hg => exact hI

theorem inv_ServeWs {s : PartyManager} (hI : Inv s) : Inv (ServeWs s).1 :=
  ⟨hI.fresh, hI.forward, hI.pub⟩

theorem inv_initPM (timeout : Nat) : Inv (initPM timeout) := by
  refine ⟨?_, ?_, ?_⟩
  · intro e he; simp [initPM] at he
  · intro e he; simp [initPM] at he
  · intro q hq; simp [initPM] at hq

theorem inv_applyCmd {s : PartyManager} (hI : Inv s) (c : Cmd) :
    Inv (applyCmd s c) := by
  cases c with
  | connect => exact inv_ServeWs hI
  | addClient now ref cid pid sec => exact inv_handleAddClient hI now ref cid pid sec
  | removeClient ref => exact inv_handleRemoveClient hI ref
  | startGame ref => exact inv_handleStartGame hI ref
  | disconnect now ref => exact inv_handleDisconnect hI now ref
  | cleanup now => exact inv_handleCleanup hI now
  | queueDrain =>
    show Inv (handleQueueDrain s)
    unfold handleQueueDrain
    split
    · exact hI
    next ref rest hq =>
      exact inv_handleQueueJoin (s := { s with PublicQueue := rest })
        ⟨hI.fresh, hI.forward, hI.pub⟩ ref
  | gameEnded gid => exact inv_handleGameEnded hI gid

/-- The inductive invariant holds in every reachable coordinator state. -/
theorem inv_reach {s : PartyManager} (h : Reach s) : Inv s := by
  induction h with
  | init timeout => exact inv_initPM timeout
  | step _ hstep ih =>
    rcases hstep with ⟨c, rfl⟩
    exact inv_applyCmd ih c

/-! ## Supporting lemmas for the per-command theorems -/

theorem game_MarkClientConnected (p : Party) (cid : ClientID) :
    (p.MarkClientConnected cid).game = p.game := by
  unfold Party.MarkClientConnected
  cases lookupA p.Members cid <;> rfl

theorem lookupA_updateClientGame (heap : ClientHeap) (ref : ClientRef) (g : Option GameID)
    (r : ClientRef) :
    lookupA (updateClientGame heap ref g) r =
      if r = ref then (lookupA heap ref).map (fun cd => { cd with game := g })
      else lookupA heap r := by
  unfold updateClientGame
  cases h : lookupA heap ref with
  | none =>
    by_cases hr : r = ref
    · subst hr
      rw [if_pos rfl, h]
      rfl
    · rw [if_neg hr]
  | some cd =>
    by_cases hr : r = ref
    · subst hr
      rw [lookupA_insertA_self, if_pos rfl]
      rfl
    · rw [lookupA_insertA_ne _ _ _ _ hr, if_neg hr]

theorem lookupA_foldl_updateGame (refs : List ClientRef) (heap : ClientHeap)
    (gid : GameID) (r : ClientRef) :
    lookupA (refs.foldl (fun h x => updateClientGame h x (some gid)) heap) r =
      if r ∈ refs then (lookupA heap r).map (fun cd => { cd with game := some gid })
      else lookupA heap r := by
  induction refs generalizing heap with
  | nil => simp
  | cons x xs ih =>
    simp only [List.foldl_cons]
    rw [ih]
    by_cases hmem : r ∈ xs
    · rw [if_pos hmem, if_pos (List.mem_cons_of_mem _ hmem)]
      rw [lookupA_updateClientGame]
      by_cases hrx : r = x
      · subst hrx
        rw [if_pos rfl]
        cases lookupA heap r <;> simp
      · rw [if_neg hrx]
    · rw [if_neg hmem, lookupA_updateClientGame]
      by_cases hrx : r = x
      · subst hrx
        rw [if_pos rfl, if_pos (List.mem_cons_self _ _)]
      · rw [if_neg hrx, if_neg (by simp [hrx, hmem])]

theorem RemoveClient_host_mem (p : Party) (cid : ClientID)
    (hne : (p.RemoveClient cid).IsEmpty = false) (hhost : p.HostID = cid) :
    (lookupA (p.RemoveClient cid).Members (p.RemoveClient cid).HostID).isSome = true := by
  unfold Party.RemoveClient Party.IsEmpty at *
  cases herase : eraseA p.Members cid with
  | nil => rw [herase] at hne; simp at hne
  | cons e t => simp [herase, hhost, lookupA]

theorem choose_eq_ite (s : PartyManager) :
    choosePublicParty s =
      if publicPartyNeedsNew s then allocPublicParty s
      else (s.PublicParty.getD 0, s) := by
  unfold choosePublicParty
  split
  next hpp => simp [publicPartyNeedsNew, hpp]
  next pid0 hpp =>
    split
    next hp => simp [publicPartyNeedsNew, hpp, hp]
    next p0 hp =>
      by_cases hfull : p0.IsFull = true
      · rw [if_pos hfull]
        simp [publicPartyNeedsNew, hpp, hp, hfull]
      · rw [if_neg hfull]
        simp only [Bool.not_eq_true] at hfull
        simp [publicPartyNeedsNew, hpp, hp, hfull]

theorem publicPartyLiveB_of_inv {s : PartyManager}
    (h : ∀ pid, s.PublicParty = some pid → (lookupA s.Parties pid).isSome = true) :
    publicPartyLiveB s = true := by
  unfold publicPartyLiveB
  split
  · rfl
  next pid hp => exact h pid hp

namespace Messages

theorem memberList_roundtrip (ms : List PartyMemberInfo) :
    decodeMemberList (ms.map marshalPartyMemberInfo) = some ms := by
  induction ms with
  | nil => rfl
  | cons m t ih =>
    show decodeMemberList (marshalPartyMemberInfo m :: t.map marshalPartyMemberInfo) = _
    unfold decodeMemberList
    rw [ih]
    rfl

theorem unmarshal_marshal_memberUpdate (p : ServerMessageMemberUpdatePayload) :
    unmarshalMemberUpdate (marshalMemberUpdate p) = some p := by
  obtain ⟨ms⟩ := p
  show (decodeMemberList (ms.map marshalPartyMemberInfo)).map
      (fun l => ({ Members := l } : ServerMessageMemberUpdatePayload)) =
    some { Members := ms }
  rw [memberList_roundtrip]
  rfl

theorem unmarshal_marshal_error (p : ServerMessageErrorPayload) :
    unmarshalError (marshalError p) = some p := by
  obtain ⟨pc, pm, pr⟩ := p
  by_cases hr : pr = ""
  · subst hr
    rfl
  · unfold marshalError
    rw [if_neg hr]
    rfl

/-- C8: the encode-then-decode round trip holds exactly for the five
outbound tags that `UnmarshalServerMessage` dispatches on — `connectSuccess`,
`queueJoined`, `partyJoined`, `error` and `memberUpdate`: decoding a frame
obtained by marshalling any payload of one of these shapes under its tag
returns the original payload value.  (The remaining outbound tags fall to the
default branch; see the counterexample.) -/
theorem c8_roundtrip :
    (∀ p : ServerMessageConnectSuccessPayload,
      UnmarshalServerMessage ⟨ServerMessageConnectSuccess, marshalConnectSuccess p⟩ =
        Except.ok (ServerPayload.connectSuccess p)) ∧
    (∀ p : ServerMessageQueueJoinedPayload,
      UnmarshalServerMessage ⟨ServerMessageQueueJoined, marshalQueueJoined p⟩ =
        Except.ok (ServerPayload.queueJoined p)) ∧
    (∀ p : ServerMessagePartyJoinedPayload,
      UnmarshalServerMessage ⟨ServerMessagePartyJoined, marshalPartyJoined p⟩ =
        Except.ok (ServerPayload.partyJoined p)) ∧
    (∀ p : ServerMessageErrorPayload,
      UnmarshalServerMessage ⟨ServerMessageError, marshalError p⟩ =
        Except.ok (ServerPayload.error p)) ∧
    (∀ p : ServerMessageMemberUpdatePayload,
      UnmarshalServerMessage ⟨ServerMessageMemberUpdate, marshalMemberUpdate p⟩ =
        Except.ok (ServerPayload.memberUpdate p)) := by
  refine ⟨fun p => rfl, fun p => rfl, fun p => rfl, fun p => ?_, fun p => ?_⟩
  · show (match unmarshalError (marshalError p) with
      | some q => Except.ok (ServerPayload.error q)
      | none => Except.error "json: cannot unmarshal payload") = _
    rw [unmarshal_marshal_error]
  · show (match unmarshalMemberUpdate (marshalMemberUpdate p) with
      | some q => Except.ok (ServerPayload.memberUpdate q)
      | none => Except.error "json: cannot unmarshal payload") = _
    rw [unmarshal_marshal_memberUpdate]

/-- C8 counterexample: `UnmarshalServerMessage` does not invert the encoding
of every outbound tag — a marshalled `gameStarted` frame (and likewise
`gameOver`) decodes to the unknown-type error, not to the original value. -/
theorem c8_counterexample :
    UnmarshalServerMessage
      ⟨ServerMessageGameStarted, marshalGameStarted { CountdownSeconds := 3, Timestamp := 1000 }⟩ =
      Except.error "unknown server message type: gameStarted" ∧
    UnmarshalServerMessage
      ⟨ServerMessageGameOver, marshalGameEnded { WinnerID := "w", Reason := "deckEmpty" }⟩ =
      Except.error "unknown server message type: gameOver" := by
  exact ⟨rfl, rfl⟩

end Messages

/-! ## Claim C1 — the membership invariant -/

/-- C1 counterexample: the bidirectional invariant "`c ∈ Members` iff some
party in `Parties` contains `c`" does not hold in every reachable state.
After `c1Trace` (a client already in one party joins a second party through
the `AlreadyInParty` fall-through and then leaves it), the first party still
contains the client but `Members` no longer indexes it. -/
theorem c1_counterexample :
    ¬ (∀ s : PartyManager, Reach s → membersPartiesAgree s = true) :=
  fun h =>
    absurd (h (execFrom (initPM 15) c1Trace) (reach_execFrom (Reach.init 15) c1Trace))
      (by decide)

/-- C1 (amended): in every reachable coordinator state the forward direction
holds — every `Members` entry maps a `ClientID` to an existing party whose
member map contains that client.  The converse fails (see the
counterexample) because the `AlreadyInParty` branch falls through and can
leave a client in two parties' member maps. -/
theorem c1_members_forward : ∀ s : PartyManager, Reach s → memberForwardB s = true :=
  fun _s h => memberForwardB_iff.2 (inv_reach h).forward

theorem c1_witness : memberForwardB (execFrom (initPM 15) c1Trace) = true :=
  c1_members_forward _ (reach_execFrom (Reach.init 15) c1Trace)

/-! ## Claim C2 — successful reconnect -/

/-- C2 counterexample: on a successful reconnect the `partyJoined` message
carries the `partyId` supplied in the join request, not the id of the party
actually rejoined.  After `reconnectTrace`, a reconnect request carrying
`partyId = 0` (Go `""`) rejoins party `1` but is sent `partyJoined{0}`. -/
theorem c2_counterexample :
    (handleAddClient reconState 3 1 1 0 1).2.head? =
      some { dest := 2, msg := Msg.partyJoined 0 } ∧
    lookupA reconState.Members 1 = some 1 ∧
    lookupA reconState.Parties 1 = some reconParty ∧
    reconParty.ID = 1 ∧ (0 : PartyID) ≠ 1 := by
  decide

/-- C2 (amended): for an `AddClient` command whose `reconnectClientId` has a
live `Abandoned` entry younger than the timeout, whose secret matches, and
whose id still resolves through `Members` to an existing party: the new
transport and send queue are grafted onto the original `Client` struct (its
`ID` and `Secret` persist), the party member is marked connected, the
client's game reference is restored from the party, the client is sent
`partyJoined` carrying the `partyId` supplied in the request (which need not
be the rejoined party's id), `memberUpdate` is broadcast to the party, and
the `Abandoned` entry is deleted. -/
theorem c2_reconnect_success (s : PartyManager) (now : Nat)
    (refNew oldRef : ClientRef) (rcid : ClientID) (reqPid : PartyID)
    (secret : SecretKey) (cNew cOld : Client) (t0 : Nat) (pid : PartyID)
    (p : Party) (m : PartyMember)
    (h1 : lookupA s.clients refNew = some cNew)
    (h2 : lookupA s.Abandoned rcid = some (oldRef, t0))
    (h3 : lookupA s.clients oldRef = some cOld)
    (hlt : now - t0 < s.AbandonmentTimeout)
    (hsec : secret = cOld.Secret)
    (h6 : lookupA s.Members rcid = some pid)
    (h7 : lookupA s.Parties pid = some p)
    (h8 : lookupA p.Members rcid = some m) :
    lookupA (handleAddClient s now refNew rcid reqPid secret).1.clients oldRef =
      some { ID := cOld.ID, Secret := cOld.Secret, conn := cNew.conn,
             send := cNew.send, game := p.game } ∧
    lookupA (handleAddClient s now refNew rcid reqPid secret).1.Parties pid =
      some (p.MarkClientConnected rcid) ∧
    lookupA (p.MarkClientConnected rcid).Members rcid =
      some { Client := m.Client, IsConnected := true } ∧
    lookupA (handleAddClient s now refNew rcid reqPid secret).1.Abandoned rcid = none ∧
    (handleAddClient s now refNew rcid reqPid secret).2 =
      { dest := cNew.send, msg := Msg.partyJoined reqPid } ::
        (p.MarkClientConnected rcid).broadcast
          (handleAddClient s now refNew rcid reqPid secret).1.clients
          (Msg.memberUpdate ((p.MarkClientConnected rcid).getMemberInfo
            (handleAddClient s now refNew rcid reqPid secret).1.clients)) := by
  simp only [handleAddClient, h1, h2, h3]
  rw [if_pos ⟨hlt, hsec⟩]
  simp only [h6, h7]
  refine ⟨?_, ?_, ?_, ?_, ?_⟩
  · simp only [updateClientGame, lookupA_insertA_self, lookupA_insertA_self,
      game_MarkClientConnected]
  · simp only [lookupA_insertA_self]
  · unfold Party.MarkClientConnected
    rw [h8]
    simp only [lookupA_insertA_self]
  · simp only [lookupA_eraseA_self]
  · trivial

theorem c2_witness :
    (lookupA reconState.clients 1 = some newClientW ∧
     lookupA reconState.Abandoned 1 = some (0, 2) ∧
     lookupA reconState.clients 0 = some oldClientW ∧
     3 - 2 < reconState.AbandonmentTimeout ∧
     (1 : SecretKey) = oldClientW.Secret ∧
     lookupA reconState.Members 1 = some 1 ∧
     lookupA reconState.Parties 1 = some reconParty ∧
     lookupA reconParty.Members 1 = some { Client := 0, IsConnected := false }) ∧
    (lookupA (handleAddClient reconState 3 1 1 1 1).1.clients 0 =
      some { ID := oldClientW.ID, Secret := oldClientW.Secret, conn := newClientW.conn,
             send := newClientW.send, game := reconParty.game } ∧
     lookupA (handleAddClient reconState 3 1 1 1 1).1.Parties 1 =
      some (reconParty.MarkClientConnected 1) ∧
     lookupA (reconParty.MarkClientConnected 1).Members 1 =
      some { Client := 0, IsConnected := true } ∧
     lookupA (handleAddClient reconState 3 1 1 1 1).1.Abandoned 1 = none ∧
     (handleAddClient reconState 3 1 1 1 1).2 =
      { dest := newClientW.send, msg := Msg.partyJoined 1 } ::
        (reconParty.MarkClientConnected 1).broadcast
          (handleAddClient reconState 3 1 1 1 1).1.clients
          (Msg.memberUpdate ((reconParty.MarkClientConnected 1).getMemberInfo
            (handleAddClient reconState 3 1 1 1 1).1.clients))) :=
  ⟨⟨by decide, by decide, by decide, by decide, by decide, by decide, by decide, by decide⟩,
   c2_reconnect_success reconState 3 1 0 1 1 1 newClientW oldClientW 2 1 reconParty
     { Client := 0, IsConnected := false }
     (by decide) (by decide) (by decide) (by decide) (by decide) (by decide) (by decide)
     (by decide)⟩

/-! ## Claim C3 — rejected reconnect -/

/-- C3: for an `AddClient` command whose `reconnectClientId` has an
`Abandoned` entry, if the entry's age is at least `AbandonmentTimeout` or the
supplied secret differs from the stored secret, the connecting client is
sent `error{sessionExpired}`, the `Abandoned` entry is deleted, and nothing
else in the coordinator state changes — a single wrong-secret attempt makes
the original session unrecoverable. -/
theorem c3_reconnect_rejected (s : PartyManager) (now : Nat)
    (refNew oldRef : ClientRef) (rcid : ClientID) (reqPid : PartyID)
    (secret : SecretKey) (cNew cOld : Client) (t0 : Nat)
    (h1 : lookupA s.clients refNew = some cNew)
    (h2 : lookupA s.Abandoned rcid = some (oldRef, t0))
    (h3 : lookupA s.clients oldRef = some cOld)
    (hfail : s.AbandonmentTimeout ≤ now - t0 ∨ secret ≠ cOld.Secret) :
    (handleAddClient s now refNew rcid reqPid secret).1 =
      { s with Abandoned := eraseA s.Abandoned rcid } ∧
    lookupA (handleAddClient s now refNew rcid reqPid secret).1.Abandoned rcid = none ∧
    (handleAddClient s now refNew rcid reqPid secret).2 =
      [{ dest := cNew.send,
         msg := Msg.error ErrCode.sessionExpired "Reconnection window expired." "join" }] := by
  have hneg : ¬ (now - t0 < s.AbandonmentTimeout ∧ secret = cOld.Secret) := by
    rcases hfail with h | h
    · exact fun hc => absurd hc.1 (not_lt.2 h)
    · exact fun hc => h hc.2
  simp only [handleAddClient, h1, h2, h3]
  rw [if_neg hneg]
  exact ⟨rfl, by simp, rfl⟩

theorem c3_witness :
    (lookupA reconState.clients 1 = some newClientW ∧
     lookupA reconState.Abandoned 1 = some (0, 2) ∧
     lookupA reconState.clients 0 = some oldClientW ∧
     (reconState.AbandonmentTimeout ≤ 3 - 2 ∨ (9 : SecretKey) ≠ oldClientW.Secret)) ∧
    ((handleAddClient reconState 3 1 1 1 9).1 =
      { reconState with Abandoned := eraseA reconState.Abandoned 1 } ∧
     lookupA (handleAddClient reconState 3 1 1 1 9).1.Abandoned 1 = none ∧
     (handleAddClient reconState 3 1 1 1 9).2 =
      [{ dest := newClientW.send,
         msg := Msg.error ErrCode.sessionExpired "Reconnection window expired." "join" }]) :=
  ⟨⟨by decide, by decide, by decide, Or.inr (by decide)⟩,
   c3_reconnect_rejected reconState 3 1 0 1 1 9 newClientW oldClientW 2
     (by decide) (by decide) (by decide) (Or.inr (by decide))⟩

/-! ## Claim C4 — StartGame -/

/-- C4: for a `StartGame` command from a client whose `Members` entry
resolves to an existing party: a non-host is refused with
`error{notPartyHost}` and no game is created; a host of a party below
`minPartySize` (2) is refused with `error{notEnoughMembers}` and no game is
created; otherwise a new `Game` is created and registered in `Games`,
attached as the party's game, every member's client `game` reference is set
to it, and the game's start command broadcasts `gameStarted` to every
member. -/
theorem c4_startGame (s : PartyManager) (now : Nat) (ref : ClientRef)
    (c : Client) (pid : PartyID) (p : Party)
    (h1 : lookupA s.clients ref = some c)
    (h2 : lookupA s.Members c.ID = some pid)
    (h3 : lookupA s.Parties pid = some p) :
    (c.ID ≠ p.HostID →
      handleStartGame s ref =
        (s, [{ dest := c.send,
               msg := Msg.error ErrCode.notPartyHost "Not party host." "startGame" }])) ∧
    (c.ID = p.HostID → p.Members.length < minPartySize →
      handleStartGame s ref =
        (s, [{ dest := c.send,
               msg := Msg.error ErrCode.notEnoughMembers "Party size is too small." "startGame" }])) ∧
    (c.ID = p.HostID → minPartySize ≤ p.Members.length →
      lookupA (handleStartGame s ref).1.Games s.nextGameId =
        some { ID := s.nextGameId, Clients := p.Members.map (fun e => (e.1, e.2.Client)) } ∧
      lookupA (handleStartGame s ref).1.Parties pid = some { p with game := some s.nextGameId } ∧
      (∀ e ∈ p.Members, ∀ cd, lookupA s.clients e.2.Client = some cd →
        lookupA (handleStartGame s ref).1.clients e.2.Client =
          some { cd with game := some s.nextGameId }) ∧
      (handleStartGame s ref).2 = [] ∧
      (∀ e ∈ p.Members, ∀ cd, lookupA s.clients e.2.Client = some cd →
        { dest := cd.send, msg := Msg.gameStarted 3 now } ∈
          Game.handleStartCmd
            { ID := s.nextGameId, Clients := p.Members.map (fun e => (e.1, e.2.Client)) }
            (handleStartGame s ref).1.clients now)) := by
  refine ⟨?_, ?_, ?_⟩
  · intro hne
    simp only [handleStartGame, h1, h2, h3]
    rw [if_pos hne]
  · intro hhost hsize
    simp only [handleStartGame, h1, h2, h3]
    rw [if_neg (fun hh => hh hhost), if_pos hsize]
  · intro hhost hsize
    simp only [handleStartGame, h1, h2, h3]
    rw [if_neg (fun hh => hh hhost), if_neg (not_lt.2 hsize)]
    refine ⟨?_, ?_, ?_, ?_, ?_⟩
    · simp only [lookupA_insertA_self]
    · simp only [lookupA_insertA_self]
    · intro e he cd hcd
      rw [lookupA_foldl_updateGame,
        if_pos (List.mem_map.2 ⟨e, he, rfl⟩), hcd]
      rfl
    · rfl
    · intro e he cd hcd
      refine List.mem_filterMap.2 ⟨(e.1, e.2.Client), List.mem_map.2 ⟨e, he, rfl⟩, ?_⟩
      rw [lookupA_foldl_updateGame, if_pos (List.mem_map.2 ⟨e, he, rfl⟩), hcd]
      rfl

theorem c4_witness :
    (lookupA pairState.clients 0 = some hostClientW ∧
     lookupA pairState.Members 1 = some 1 ∧
     lookupA pairState.Parties 1 = some pairParty ∧
     hostClientW.ID = pairParty.HostID ∧ minPartySize ≤ pairParty.Members.length) ∧
    (lookupA (handleStartGame pairState 0).1.Games pairState.nextGameId =
      some { ID := pairState.nextGameId,
             Clients := pairParty.Members.map (fun e => (e.1, e.2.Client)) } ∧
     lookupA (handleStartGame pairState 0).1.Parties 1 =
      some { pairParty with game := some pairState.nextGameId } ∧
     (handleStartGame pairState 0).2 = []) :=
  ⟨⟨by decide, by decide, by decide, by decide, by decide⟩,
   by
     have h := (c4_startGame pairState 5 0 hostClientW 1 pairParty
       (by decide) (by decide) (by decide)).2.2 (by decide) (by decide)
     exact ⟨h.1, h.2.1, h.2.2.2.1⟩⟩

/-! ## Claim C5 — joining a specific party -/

/-- C5: evaluation of the code at the failing input.  After `c5Trace` party
`1` is full (six members), yet an explicit `AddClient` for party `1` from a
seventh client adds it (seven members), indexes it in `Members`, sends it
`partyJoined` first, and emits no error at all — the `partyFull` refusal
claimed by the spec (and documented in the repo README) and the
`gameInProgress` refusal do not exist in the code. -/
theorem c5_full_party_join :
    (lookupA (execFrom (initPM 15) c5Trace).Parties 1).map Party.IsFull = some true ∧
    (lookupA ((handleAddClient (execFrom (initPM 15) c5Trace) 0 6 0 1 0).1.Parties) 1).map
      (fun p => p.Members.length) = some 7 ∧
    lookupA ((handleAddClient (execFrom (initPM 15) c5Trace) 0 6 0 1 0).1.Members) 7 =
      some 1 ∧
    (handleAddClient (execFrom (initPM 15) c5Trace) 0 6 0 1 0).2.head? =
      some { dest := 7, msg := Msg.partyJoined 1 } ∧
    ((handleAddClient (execFrom (initPM 15) c5Trace) 0 6 0 1 0).2.all
      (fun o => !isErrorMsg o.msg)) = true := by
  decide

/-! ## Claim C6 — the public-party invariant -/

/-- C6 counterexample: a reachable state (two clients queue into the public
party and the host starts a game) in which `PublicParty` refers to a party
with an active game, violating the claimed invariant — so a subsequently
queued client would be placed into a party whose game is running. -/
theorem c6_counterexample :
    ¬ (∀ s : PartyManager, Reach s → publicPartyOpenB s = true) :=
  fun h =>
    absurd (h (execFrom (initPM 15) c6Trace) (reach_execFrom (Reach.init 15) c6Trace))
      (by decide)

/-- C6 (amended): in every reachable state a non-nil `PublicParty` refers to
a party present in `Parties`; and the queue drain allocates a fresh party
exactly when the current public party is nil (or stale) or full — the
not-full and no-active-game parts of the claimed invariant, and the
has-active-game allocation trigger, are not implemented (see the
counterexample). -/
theorem c6_public_party :
    (∀ s : PartyManager, Reach s → publicPartyLiveB s = true) ∧
    (∀ s : PartyManager, choosePublicParty s =
      if publicPartyNeedsNew s then allocPublicParty s else (s.PublicParty.getD 0, s)) :=
  ⟨fun _s h => publicPartyLiveB_of_inv (inv_reach h).pub, choose_eq_ite⟩

theorem c6_witness : publicPartyLiveB (execFrom (initPM 15) c6Trace) = true :=
  c6_public_party.1 _ (reach_execFrom (Reach.init 15) c6Trace)

/-! ## Claim C7 — leaving a party -/

/-- C7: for a `RemoveClient` (leave) command from a client whose `Members`
entry resolves to an existing party: the client is removed from the party's
member map and from `Members` and is sent `partyLeft{self-initiated}`; if
the party becomes empty it is deleted from `Parties` and the `PublicParty`
pointer is cleared exactly when it referred to that party; otherwise the
remaining members receive `memberUpdate`, and if the departing client was
the host, some remaining member is the new host. -/
theorem c7_remove_client (s : PartyManager) (ref : ClientRef) (c : Client)
    (pid : PartyID) (p : Party)
    (h1 : lookupA s.clients ref = some c)
    (h2 : lookupA s.Members c.ID = some pid)
    (h3 : lookupA s.Parties pid = some p) :
    lookupA (handleRemoveClient s ref).1.Members c.ID = none ∧
    lookupA (p.RemoveClient c.ID).Members c.ID = none ∧
    ((p.RemoveClient c.ID).IsEmpty = true →
      lookupA (handleRemoveClient s ref).1.Parties pid = none ∧
      (s.PublicParty = some pid → (handleRemoveClient s ref).1.PublicParty = none) ∧
      (s.PublicParty ≠ some pid →
        (handleRemoveClient s ref).1.PublicParty = s.PublicParty) ∧
      (handleRemoveClient s ref).2 =
        [{ dest := c.send, msg := Msg.partyLeft "self-initiated" }]) ∧
    ((p.RemoveClient c.ID).IsEmpty = false →
      lookupA (handleRemoveClient s ref).1.Parties pid = some (p.RemoveClient c.ID) ∧
      (handleRemoveClient s ref).2 =
        { dest := c.send, msg := Msg.partyLeft "self-initiated" } ::
          (p.RemoveClient c.ID).broadcast s.clients
            (Msg.memberUpdate ((p.RemoveClient c.ID).getMemberInfo s.clients)) ∧
      (p.HostID = c.ID →
        (lookupA (p.RemoveClient c.ID).Members (p.RemoveClient c.ID).HostID).isSome = true)) := by
  simp only [handleRemoveClient, removeClientFromParty, h1, h2, h3]
  refine ⟨?_, ?_, ?_, ?_⟩
  · by_cases hempty : (p.RemoveClient c.ID).IsEmpty = true
    · rw [if_pos hempty]
      simp only [lookupA_eraseA_self]
    · rw [if_neg hempty]
      simp only [lookupA_eraseA_self]
  · unfold Party.RemoveClient
    simp only [lookupA_eraseA_self]
  · intro hempty
    rw [if_pos hempty]
    refine ⟨?_, ?_, ?_, ?_⟩
    · simp only [lookupA_eraseA_self]
    · intro hpub
      simp [hpub]
    · intro hpub
      simp only [if_neg hpub]
    · simp [leaveNotice, sendOpt]
  · intro hempty
    rw [if_neg (by rw [hempty]; exact Bool.false_ne_true)]
    refine ⟨?_, ?_, ?_⟩
    · simp only [lookupA_insertA_self]
    · simp [leaveNotice, sendOpt]
    · intro hhost
      exact RemoveClient_host_mem p c.ID hempty (hhost.symm ▸ rfl)

theorem c7_witness :
    (lookupA pairState.clients 0 = some hostClientW ∧
     lookupA pairState.Members 1 = some 1 ∧
     lookupA pairState.Parties 1 = some pairParty ∧
     (pairParty.RemoveClient 1).IsEmpty = false ∧ pairParty.HostID = 1) ∧
    (lookupA (handleRemoveClient pairState 0).1.Members 1 = none ∧
     lookupA (pairParty.RemoveClient 1).Members 1 = none ∧
     lookupA (handleRemoveClient pairState 0).1.Parties 1 = some (pairParty.RemoveClient 1) ∧
     (handleRemoveClient pairState 0).2 =
       { dest := hostClientW.send, msg := Msg.partyLeft "self-initiated" } ::
         (pairParty.RemoveClient 1).broadcast pairState.clients
           (Msg.memberUpdate ((pairParty.RemoveClient 1).getMemberInfo pairState.clients)) ∧
     (lookupA (pairParty.RemoveClient 1).Members
       (pairParty.RemoveClient 1).HostID).isSome = true) :=
  ⟨⟨by decide, by decide, by decide, by decide, by decide⟩,
   by
     have h := c7_remove_client pairState 0 hostClientW 1 pairParty
       (by decide) (by decide) (by decide)
     have h4 := h.2.2.2 (by decide)
     exact ⟨h.1, h.2.1, h4.1, h4.2.1, h4.2.2 (by decide)⟩⟩

/-! ## Claim C9 — connectSuccess on accept -/

/-- C9: immediately after a transport is accepted and the client's pumps are
started, `ServeWs` sends that client a `connectSuccess` message whose payload
carries both the freshly assigned client id and the paired secret key. -/
theorem c9_connectSuccess (s : PartyManager) :
    ∃ c : Client, lookupA (ServeWs s).1.clients s.nextClientRef = some c ∧
      (ServeWs s).2 =
        [{ dest := c.send, msg := Msg.connectSuccess { clientId := c.ID, secretKey := c.Secret } }] :=
  ⟨{ ID := s.nextClientRef + 1, Secret := s.nextClientRef + 1, conn := s.nextClientRef + 1,
     send := s.nextClientRef + 1, game := none },
   by simp [ServeWs, lookupA_insertA_self], rfl⟩

/-! ## Claim C10 — duplicate Party.AddClient -/

/-- C10 counterexample: for a party value whose `HostID` is not one of its
members, re-adding the sole member changes `HostID` — the claim as stated
(over every `Party` and every already-present client) is false. -/
theorem c10_counterexample :
    (lookupA c10Party.Members 5).isSome = true ∧
    (c10Party.AddClient 0 5).HostID = 5 ∧
    c10Party.HostID = 7 := by
  decide

/-- C10 (amended): for every party satisfying the documented host invariant
(`HostID` is a member whenever the party is non-empty) and every client whose
id is already a member key, calling `Party.AddClient` again leaves the member
count and `HostID` unchanged and resets the member's `IsConnected` to
true. -/
theorem c10_duplicate_addClient (p : Party) (ref : ClientRef) (cid : ClientID)
    (m : PartyMember)
    (hmem : lookupA p.Members cid = some m)
    (hhost : p.Members ≠ [] → (lookupA p.Members p.HostID).isSome = true) :
    (p.AddClient ref cid).Members.length = p.Members.length ∧
    (p.AddClient ref cid).HostID = p.HostID ∧
    lookupA (p.AddClient ref cid).Members cid = some { Client := ref, IsConnected := true } := by
  have hsome : (lookupA p.Members cid).isSome = true := by rw [hmem]; rfl
  have hlen : (insertA p.Members cid { Client := ref, IsConnected := true }).length =
      p.Members.length :=
    length_insertA_of_lookup_isSome _ _ _ hsome
  refine ⟨?_, ?_, ?_⟩
  · exact hlen
  · show (if (insertA p.Members cid { Client := ref, IsConnected := true }).length = 1
      then cid else p.HostID) = p.HostID
    rw [hlen]
    by_cases h1 : p.Members.length = 1
    · rw [if_pos h1]
      cases hm : p.Members with
      | nil => rw [hm] at h1; simp at h1
      | cons e t =>
        have ht : t = [] := by
          rw [hm] at h1
          simpa using h1
        subst ht
        have hcid : e.1 = cid := by
          rw [hm] at hmem
          by_cases hc : e.1 = cid
          · exact hc
          · rw [lookupA, if_neg hc] at hmem
            cases hmem
        have hh : (lookupA p.Members p.HostID).isSome = true := by
          refine hhost ?_
          rw [hm]
          simp
        rw [hm] at hh
        have hhid : e.1 = p.HostID := by
          by_cases hc : e.1 = p.HostID
          · exact hc
          · rw [lookupA, if_neg hc] at hh
            simp [lookupA] at hh
        rw [← hcid, hhid]
    · rw [if_neg h1]
  · exact lookupA_insertA_self _ _ _

theorem c10_witness :
    lookupA pairParty.Members 1 = some { Client := 0, IsConnected := true } ∧
    ((pairParty.AddClient 4 1).Members.length = pairParty.Members.length ∧
     (pairParty.AddClient 4 1).HostID = pairParty.HostID ∧
     lookupA (pairParty.AddClient 4 1).Members 1 = some { Client := 4, IsConnected := true }) :=
  ⟨by decide,
   c10_duplicate_addClient pairParty 4 1 { Client := 0, IsConnected := true } (by decide)
     (fun _ => by decide)⟩

end Lightning
